import Mathlib

/-!
# Verification of the cf4ocl wrapper core

Shallow embedding of the cf4ocl (C Framework for OpenCL) wrapper base
machinery: the handle registry (native handle → wrapper), the
reference-counted wrapper base class (`ccl_wrapper_new`, `ccl_wrapper_ref`,
`ccl_wrapper_unref`), the per-wrapper info cache (`ccl_wrapper_get_info`),
the device container mixin, and the concrete kernel/platforms layer
(`ccl_kernel_new`, `ccl_kernel_set_args_v`, `ccl_platforms_new`).

Native handles, wrapper identities (C pointers) and buffer identities are
modelled as natural numbers; the registry and the info cache (GLib hash
tables in the source) are modelled as key-unique association lists.
-/

/-! ## Association list helpers (model of GHashTable) -/

/-- Lookup in an association list keyed by `Nat` (first match wins). -/
def lookupA {α : Type} (k : Nat) : List (Nat × α) → Option α
  | [] => none
  | (k', v) :: rest => if k' = k then some v else lookupA k rest

/-- Insert-or-replace in an association list (model of
`g_hash_table_insert`/`g_hash_table_replace`). -/
def setA {α : Type} (k : Nat) (v : α) : List (Nat × α) → List (Nat × α)
  | [] => [(k, v)]
  | (k', v') :: rest => if k' = k then (k, v) :: rest else (k', v') :: setA k v rest

/-- Remove a key from an association list (model of `g_hash_table_remove`). -/
def removeA {α : Type} (k : Nat) : List (Nat × α) → List (Nat × α)
  | [] => []
  | (k', v) :: rest => if k' = k then rest else (k', v) :: removeA k rest

/-- Update the value at a key, if present. -/
def updateA {α : Type} (k : Nat) (f : α → α) : List (Nat × α) → List (Nat × α)
  | [] => []
  | (k', v) :: rest => if k' = k then (k', f v) :: rest else (k', v) :: updateA k f rest

/-- The keys of an association list. -/
def keysA {α : Type} (l : List (Nat × α)) : List Nat := l.map Prod.fst

/-- Key-uniqueness of an association list. -/
def NodupKeys {α : Type} (l : List (Nat × α)) : Prop := (keysA l).Nodup

theorem lookupA_setA_self {α : Type} (k : Nat) (v : α) (l : List (Nat × α)) :
    lookupA k (setA k v l) = some v := by
  induction l with
  | nil => simp [setA, lookupA]
  | cons hd tl ih =>
    obtain ⟨k', v'⟩ := hd
    by_cases h : k' = k
    · simp [setA, h, lookupA]
    · simp [setA, h, lookupA, ih]

theorem lookupA_setA_ne {α : Type} {k k' : Nat} (h : k' ≠ k) (v : α)
    (l : List (Nat × α)) : lookupA k' (setA k v l) = lookupA k' l := by
  induction l with
  | nil => simp [setA, lookupA, Ne.symm h]
  | cons hd tl ih =>
    obtain ⟨k₀, v₀⟩ := hd
    by_cases hk : k₀ = k
    · subst hk
      simp [setA, lookupA, Ne.symm h, h]
    · simp [setA, hk, lookupA, ih]

theorem lookupA_updateA_self {α : Type} (k : Nat) (f : α → α)
    (l : List (Nat × α)) : lookupA k (updateA k f l) = (lookupA k l).map f := by
  induction l with
  | nil => simp [updateA, lookupA]
  | cons hd tl ih =>
    obtain ⟨k', v'⟩ := hd
    by_cases h : k' = k
    · simp [updateA, h, lookupA]
    · simp [updateA, h, lookupA, ih]

theorem lookupA_updateA_ne {α : Type} {k k' : Nat} (h : k' ≠ k) (f : α → α)
    (l : List (Nat × α)) : lookupA k' (updateA k f l) = lookupA k' l := by
  induction l with
  | nil => simp [updateA, lookupA]
  | cons hd tl ih =>
    obtain ⟨k₀, v₀⟩ := hd
    by_cases hk : k₀ = k
    · subst hk
      simp [updateA, lookupA, Ne.symm h]
    · simp [updateA, hk, lookupA, ih]

theorem lookupA_removeA_ne {α : Type} {k k' : Nat} (h : k' ≠ k)
    (l : List (Nat × α)) : lookupA k' (removeA k l) = lookupA k' l := by
  induction l with
  | nil => simp [removeA, lookupA]
  | cons hd tl ih =>
    obtain ⟨k₀, v₀⟩ := hd
    by_cases hk : k₀ = k
    · subst hk
      simp [removeA, lookupA, Ne.symm h]
    · simp [removeA, hk, lookupA, ih]

theorem lookupA_eq_none_of_not_mem_keys {α : Type} {k : Nat}
    {l : List (Nat × α)} (h : k ∉ keysA l) : lookupA k l = none := by
  induction l with
  | nil => simp [lookupA]
  | cons hd tl ih =>
    obtain ⟨k', v'⟩ := hd
    simp only [keysA, List.map_cons, List.mem_cons, not_or] at h
    simp only [lookupA, if_neg (Ne.symm h.1)]
    exact ih (by simpa [keysA] using h.2)

theorem lookupA_removeA_self {α : Type} (k : Nat) {l : List (Nat × α)}
    (hnd : NodupKeys l) : lookupA k (removeA k l) = none := by
  induction l with
  | nil => simp [removeA, lookupA]
  | cons hd tl ih =>
    obtain ⟨k', v'⟩ := hd
    simp only [NodupKeys, keysA, List.map_cons, List.nodup_cons] at hnd
    by_cases hk : k' = k
    · subst hk
      simp only [removeA, if_pos rfl]
      exact lookupA_eq_none_of_not_mem_keys (by simpa [keysA] using hnd.1)
    · simp only [removeA, if_neg hk, lookupA, if_neg hk]
      exact ih hnd.2

theorem keysA_setA_subset {α : Type} (k : Nat) (v : α) (l : List (Nat × α)) :
    keysA (setA k v l) ⊆ k :: keysA l := by
  induction l with
  | nil => simp [setA, keysA]
  | cons hd tl ih =>
    obtain ⟨k', v'⟩ := hd
    intro a ha
    by_cases h : k' = k
    · subst h
      have he : setA k' v ((k', v') :: tl) = (k', v) :: tl := by
        simp [setA]
      rw [he] at ha
      simp only [keysA, List.map_cons, List.mem_cons] at ha ⊢
      tauto
    · simp only [setA, if_neg h, keysA, List.map_cons, List.mem_cons] at ha ⊢
      rcases ha with ha | ha
      · tauto
      · have h2 := ih (by simpa [keysA] using ha)
        simp only [keysA, List.mem_cons] at h2
        tauto

theorem nodupKeys_setA {α : Type} (k : Nat) (v : α) {l : List (Nat × α)}
    (h : NodupKeys l) : NodupKeys (setA k v l) := by
  induction l with
  | nil => simp [setA, NodupKeys, keysA]
  | cons hd tl ih =>
    obtain ⟨k', v'⟩ := hd
    simp only [NodupKeys, keysA, List.map_cons, List.nodup_cons] at h
    by_cases hk : k' = k
    · subst hk
      have he : setA k' v ((k', v') :: tl) = (k', v) :: tl := by
        simp [setA]
      rw [NodupKeys, he]
      simpa [keysA] using h
    · have ihh := ih h.2
      have he : setA k v ((k', v') :: tl) = (k', v') :: setA k v tl := by
        simp [setA, hk]
      rw [NodupKeys, he]
      simp only [keysA, List.map_cons, List.nodup_cons]
      refine ⟨fun hmem => ?_, ihh⟩
      have h2 := keysA_setA_subset k v tl (by simpa [keysA] using hmem)
      simp only [List.mem_cons] at h2
      rcases h2 with h2 | h2
      · exact hk h2
      · exact h.1 (by simpa [keysA] using h2)

theorem keysA_removeA_subset {α : Type} (k : Nat) (l : List (Nat × α)) :
    keysA (removeA k l) ⊆ keysA l := by
  induction l with
  | nil => simp [removeA]
  | cons hd tl ih =>
    obtain ⟨k', v'⟩ := hd
    intro a ha
    by_cases h : k' = k
    · subst h
      simp only [removeA, if_pos rfl] at ha
      simp only [keysA, List.map_cons, List.mem_cons]
      right
      simpa [keysA] using ha
    · simp only [removeA, if_neg h, keysA, List.map_cons, List.mem_cons] at ha ⊢
      rcases ha with ha | ha
      · tauto
      · have h2 := ih (by simpa [keysA] using ha)
        simp only [keysA] at h2
        tauto

theorem nodupKeys_removeA {α : Type} (k : Nat) {l : List (Nat × α)}
    (h : NodupKeys l) : NodupKeys (removeA k l) := by
  induction l with
  | nil => simp [removeA, NodupKeys, keysA]
  | cons hd tl ih =>
    obtain ⟨k', v'⟩ := hd
    simp only [NodupKeys, keysA, List.map_cons, List.nodup_cons] at h
    by_cases hk : k' = k
    · subst hk
      simpa [removeA, NodupKeys, keysA] using h.2
    · have ihh := ih h.2
      simp only [removeA, if_neg hk, NodupKeys, keysA, List.map_cons,
        List.nodup_cons]
      refine ⟨fun hmem => h.1 ?_, ihh⟩
      exact (keysA_removeA_subset k tl) (by simpa [keysA] using hmem)

theorem keysA_updateA {α : Type} (k : Nat) (f : α → α) (l : List (Nat × α)) :
    keysA (updateA k f l) = keysA l := by
  induction l with
  | nil => simp [updateA]
  | cons hd tl ih =>
    obtain ⟨k', v'⟩ := hd
    by_cases h : k' = k
    · simp [updateA, h, keysA]
    · simp [updateA, h, keysA] at ih ⊢
      exact ih

theorem nodupKeys_updateA {α : Type} (k : Nat) (f : α → α)
    {l : List (Nat × α)} (h : NodupKeys l) : NodupKeys (updateA k f l) := by
  unfold NodupKeys
  rw [keysA_updateA]
  exact h

/-! ## The wrapper base class and the handle registry

The implementation file of the abstract wrapper class
(`abstract_wrapper.c`) is not part of the available sources; only its
callers (`ccl_kernel_new_wrap`, `ccl_kernel_destroy`, …), the public
headers and the user guide are.  The definitions below are therefore
modelled from the spec (§4.1 Handle Registry, §4.2 Wrapper Base) and from
the `CCLWrapper` struct shown in the user guide. -/

/-- A cached info entry (`CCLWrapperInfo`): a byte buffer plus its size.
`bufId` is the allocation identity of the buffer (the C pointer), so that
"same buffer identity" is expressible. -/
structure CCLWrapperInfo where
  bufId : Nat
  size : Nat
  value : List Nat
deriving DecidableEq, Repr

/-- Modelled from the spec: the `CCLWrapper` base class of
`abstract_wrapper.h` (shown in the user guide), whose implementation file
is missing.  Fields: the wrapped OpenCL object (`cl_object`), the info
cache (`info`, a `GHashTable` keyed by (query id, auxiliary identity)),
and the reference count. -/
structure CCLWrapper where
  cl_object : Nat
  info : List ((Nat × Option Nat) × CCLWrapperInfo)
  ref_count : Nat
deriving DecidableEq, Repr

/-- Modelled from the spec: the process-wide state of the wrapper
machinery, whose implementation file is missing.  `registry` is the static
hash table associating OpenCL objects (keys) to wrappers (values);
`wrappers` maps each live wrapper identity (the C pointer of the wrapper's
memory block) to its contents; `next_id` is the allocator for fresh
wrapper identities. -/
structure WrapperSystem where
  registry : List (Nat × Nat)
  wrappers : List (Nat × CCLWrapper)
  next_id : Nat
deriving DecidableEq, Repr

/-- The empty wrapper system: no wrappers, empty registry. -/
def WrapperSystem.empty : WrapperSystem := { registry := [], wrappers := [], next_id := 0 }

/-- Modelled from the spec: `ccl_wrapper_new` / the registry's
`find_or_insert` (implementation file missing).  Under the registry lock,
look the handle up; if present, increment the existing wrapper's ref-count
and return it; if absent, allocate a zero-initialized wrapper (empty info
cache) with `cl_object = handle` and `ref_count = 1`, insert it into the
registry, and return it.  Returns the wrapper identity and the new state. -/
def ccl_wrapper_new (handle : Nat) (s : WrapperSystem) : Nat × WrapperSystem :=
  match lookupA handle s.registry with
  | some id =>
      (id, { s with wrappers := updateA id (fun w => { w with ref_count := w.ref_count + 1 }) s.wrappers })
  | none =>
      let id := s.next_id
      let w : CCLWrapper := { cl_object := handle, info := [], ref_count := 1 }
      (id, { registry := setA handle id s.registry,
             wrappers := setA id w s.wrappers,
             next_id := s.next_id + 1 })

/-- Modelled from the spec: `ccl_wrapper_ref` (implementation file
missing) — atomically increment the wrapper's reference count. -/
def ccl_wrapper_ref (id : Nat) (s : WrapperSystem) : WrapperSystem :=
  { s with wrappers := updateA id (fun w => { w with ref_count := w.ref_count + 1 }) s.wrappers }

/-- Observable side effects of the destruction branch of
`ccl_wrapper_unref`, in the order the spec prescribes. -/
inductive WEvent where
  | fieldsReleased (id : Nat)
  | nativeDestroyed (handle : Nat)
  | registryRemoved (handle : Nat)
  | cacheFreed (id : Nat)
  | memFreed (id : Nat)
deriving DecidableEq, Repr

/-- The event sequence emitted by the final `unref` of wrapper `id`
wrapping `handle`: field releaser (if non-null), native destructor (if
non-null), registry removal, info-cache free, memory free. -/
def destroySeq (fr nd : Bool) (id handle : Nat) : List WEvent :=
  (if fr then [WEvent.fieldsReleased id] else []) ++
  (if nd then [WEvent.nativeDestroyed handle] else []) ++
  [WEvent.registryRemoved handle, WEvent.cacheFreed id, WEvent.memFreed id]

/-- Modelled from the spec: `ccl_wrapper_unref` (implementation file
missing).  Under the registry lock, decrement the wrapper's ref-count.  If
it reaches zero: invoke the field releaser (`fr`, if non-null), invoke the
native destructor (`nd`, if non-null), remove the registry entry in the
same critical section, free the info cache, and free the wrapper's memory
(the wrapper leaves the live map).  If the count remains positive, no
further action.  Returns the emitted events and the new state; a lookup
failure (null/dangling wrapper) is a precondition violation, modelled as a
no-op. -/
def ccl_wrapper_unref (id : Nat) (fr nd : Bool) (s : WrapperSystem) :
    List WEvent × WrapperSystem :=
  match lookupA id s.wrappers with
  | none => ([], s)
  | some w =>
      if w.ref_count - 1 = 0 then
        (destroySeq fr nd id w.cl_object,
         { s with registry := removeA w.cl_object s.registry,
                  wrappers := removeA id s.wrappers })
      else
        ([], { s with wrappers := updateA id (fun w' => { w' with ref_count := w'.ref_count - 1 }) s.wrappers })

/-- `n` successive `ccl_wrapper_ref` calls on the same wrapper. -/
def iterRef (id : Nat) : Nat → WrapperSystem → WrapperSystem
  | 0, s => s
  | n + 1, s => iterRef id n (ccl_wrapper_ref id s)

/-- `n` successive `ccl_wrapper_unref` calls on the same wrapper,
collecting the emitted events in order. -/
def iterUnref (id : Nat) (fr nd : Bool) : Nat → WrapperSystem → List WEvent × WrapperSystem
  | 0, s => ([], s)
  | n + 1, s =>
      let r := ccl_wrapper_unref id fr nd s
      let r' := iterUnref id fr nd n r.2
      (r.1 ++ r'.1, r'.2)

/-- `n` successive `ccl_wrapper_new` calls with the same handle (the
serialization of `n` concurrent calls, each call being atomic under the
registry lock), collecting the returned wrapper identities in call
order. -/
def iterNew (handle : Nat) : Nat → WrapperSystem → List Nat × WrapperSystem
  | 0, s => ([], s)
  | n + 1, s =>
      let r := ccl_wrapper_new handle s
      let r' := iterNew handle n r.2
      (r.1 :: r'.1, r'.2)

/-- An operation on the wrapper system, as issued by concrete wrapper
types: wrap a handle, increment, or decrement (with the concrete type's
field releaser and native destructor present or not). -/
inductive WOp where
  | new (handle : Nat)
  | ref (id : Nat)
  | unref (id : Nat) (fr nd : Bool)
deriving DecidableEq, Repr

/-- One atomic operation applied to the system state. -/
def stepW (s : WrapperSystem) : WOp → WrapperSystem
  | WOp.new h => (ccl_wrapper_new h s).2
  | WOp.ref id => ccl_wrapper_ref id s
  | WOp.unref id fr nd => (ccl_wrapper_unref id fr nd s).2

/-- Run a sequence of operations from the empty system. -/
def runW (ops : List WOp) : WrapperSystem :=
  ops.foldl stepW WrapperSystem.empty

/-- Well-formedness of the wrapper system: the registry and the live map
are key-unique; registry entries point at live wrappers with the matching
handle; every live wrapper is registered under its handle; live wrapper
identities are below the allocator. -/
structure WFW (s : WrapperSystem) : Prop where
  reg_nodup : NodupKeys s.registry
  wr_nodup : NodupKeys s.wrappers
  reg_to_wr : ∀ h id, lookupA h s.registry = some id →
    ∃ w, lookupA id s.wrappers = some w ∧ w.cl_object = h
  wr_to_reg : ∀ id w, lookupA id s.wrappers = some w →
    lookupA w.cl_object s.registry = some id
  id_lt : ∀ id w, lookupA id s.wrappers = some w → id < s.next_id

/-! ### Behaviour of the wrapper operations -/

/-- The wrapper system after incrementing wrapper `id`'s ref-count. -/
def incRef (id : Nat) (s : WrapperSystem) : WrapperSystem :=
  { s with wrappers := updateA id (fun w => { w with ref_count := w.ref_count + 1 }) s.wrappers }

/-- The wrapper system after decrementing wrapper `id`'s ref-count. -/
def decRef (id : Nat) (s : WrapperSystem) : WrapperSystem :=
  { s with wrappers := updateA id (fun w => { w with ref_count := w.ref_count - 1 }) s.wrappers }

/-- The wrapper system after destroying wrapper `id` wrapping `handle`:
the registry entry and the wrapper (with its cache) are gone. -/
def destroyW (id handle : Nat) (s : WrapperSystem) : WrapperSystem :=
  { s with registry := removeA handle s.registry, wrappers := removeA id s.wrappers }

/-- A freshly wrapped handle: zero-initialized wrapper, ref-count 1,
registered, allocator advanced. -/
def freshW (handle : Nat) (s : WrapperSystem) : WrapperSystem :=
  { registry := setA handle s.next_id s.registry,
    wrappers := setA s.next_id { cl_object := handle, info := [], ref_count := 1 } s.wrappers,
    next_id := s.next_id + 1 }

theorem ccl_wrapper_new_registered {handle id : Nat} {s : WrapperSystem}
    (h : lookupA handle s.registry = some id) :
    ccl_wrapper_new handle s = (id, incRef id s) := by
  simp [ccl_wrapper_new, h, incRef, ccl_wrapper_ref]

theorem ccl_wrapper_new_fresh {handle : Nat} {s : WrapperSystem}
    (h : lookupA handle s.registry = none) :
    ccl_wrapper_new handle s = (s.next_id, freshW handle s) := by
  simp [ccl_wrapper_new, h, freshW]

theorem ccl_wrapper_unref_dead {id : Nat} {fr nd : Bool} {s : WrapperSystem}
    (h : lookupA id s.wrappers = none) :
    ccl_wrapper_unref id fr nd s = ([], s) := by
  simp [ccl_wrapper_unref, h]

theorem ccl_wrapper_unref_last {id : Nat} {fr nd : Bool} {s : WrapperSystem}
    {w : CCLWrapper} (h : lookupA id s.wrappers = some w)
    (hz : w.ref_count - 1 = 0) :
    ccl_wrapper_unref id fr nd s =
      (destroySeq fr nd id w.cl_object, destroyW id w.cl_object s) := by
  simp [ccl_wrapper_unref, h, hz, destroyW]

theorem ccl_wrapper_unref_live {id : Nat} {fr nd : Bool} {s : WrapperSystem}
    {w : CCLWrapper} (h : lookupA id s.wrappers = some w)
    (hz : w.ref_count - 1 ≠ 0) :
    ccl_wrapper_unref id fr nd s = ([], decRef id s) := by
  simp [ccl_wrapper_unref, h, hz, decRef]

/-- Updating one wrapper's ref-count preserves well-formedness
(covers `ccl_wrapper_ref` and the registered branch of `ccl_wrapper_new`). -/
theorem wfw_updateA_refcount {s : WrapperSystem} (hs : WFW s) (id : Nat)
    (f : CCLWrapper → CCLWrapper) (hf : ∀ w, (f w).cl_object = w.cl_object) :
    WFW { s with wrappers := updateA id f s.wrappers } := by
  refine ⟨hs.reg_nodup, nodupKeys_updateA id f hs.wr_nodup, ?_, ?_, ?_⟩
  · intro h' id' hreg
    obtain ⟨w, hw, hco⟩ := hs.reg_to_wr h' id' hreg
    by_cases hid : id' = id
    · subst hid
      refine ⟨f w, ?_, ?_⟩
      · simp [lookupA_updateA_self, hw]
      · rw [hf w]; exact hco
    · exact ⟨w, by rw [lookupA_updateA_ne hid]; exact hw, hco⟩
  · intro id' w' hw'
    by_cases hid : id' = id
    · subst hid
      rw [lookupA_updateA_self] at hw'
      obtain ⟨w, hw, hfw⟩ := Option.map_eq_some'.mp hw'
      have := hs.wr_to_reg id' w hw
      rw [← hfw, hf w]
      exact this
    · rw [lookupA_updateA_ne hid] at hw'
      exact hs.wr_to_reg id' w' hw'
  · intro id' w' hw'
    by_cases hid : id' = id
    · subst hid
      rw [lookupA_updateA_self] at hw'
      obtain ⟨w, hw, _⟩ := Option.map_eq_some'.mp hw'
      exact hs.id_lt id' w hw
    · rw [lookupA_updateA_ne hid] at hw'
      exact hs.id_lt id' w' hw'

/-- `ccl_wrapper_new` preserves well-formedness. -/
theorem wfw_new {s : WrapperSystem} (hs : WFW s) (handle : Nat) :
    WFW (ccl_wrapper_new handle s).2 := by
  cases hreg : lookupA handle s.registry with
  | some id =>
      rw [ccl_wrapper_new_registered hreg]
      exact wfw_updateA_refcount hs id _ (fun w => rfl)
  | none =>
      rw [ccl_wrapper_new_fresh hreg]
      show WFW (freshW handle s)
      unfold freshW
      have hidnone : lookupA s.next_id s.wrappers = none := by
        cases hw : lookupA s.next_id s.wrappers with
        | none => rfl
        | some w => exact absurd (hs.id_lt s.next_id w hw) (lt_irrefl _)
      refine ⟨nodupKeys_setA handle s.next_id hs.reg_nodup,
              nodupKeys_setA s.next_id _ hs.wr_nodup, ?_, ?_, ?_⟩
      · intro h' id' hreg'
        by_cases hh : h' = handle
        · subst hh
          rw [lookupA_setA_self] at hreg'
          obtain rfl : s.next_id = id' := Option.some.inj hreg'
          exact ⟨_, lookupA_setA_self _ _ _, rfl⟩
        · rw [lookupA_setA_ne hh] at hreg'
          obtain ⟨w, hw, hco⟩ := hs.reg_to_wr h' id' hreg'
          have hid : id' ≠ s.next_id := by
            intro he
            rw [he, hidnone] at hw
            exact Option.noConfusion hw
          exact ⟨w, by rw [lookupA_setA_ne hid]; exact hw, hco⟩
      · intro id' w' hw'
        by_cases hid : id' = s.next_id
        · subst hid
          rw [lookupA_setA_self] at hw'
          obtain rfl : ({ cl_object := handle, info := [], ref_count := 1 } : CCLWrapper) = w' :=
            Option.some.inj hw'
          simpa using lookupA_setA_self handle s.next_id s.registry
        · rw [lookupA_setA_ne hid] at hw'
          have hr := hs.wr_to_reg id' w' hw'
          have hh : w'.cl_object ≠ handle := by
            intro he
            rw [he, hreg] at hr
            exact Option.noConfusion hr
          rw [lookupA_setA_ne hh]
          exact hr
      · intro id' w' hw'
        by_cases hid : id' = s.next_id
        · subst hid
          exact Nat.lt_succ_self _
        · rw [lookupA_setA_ne hid] at hw'
          exact Nat.lt_succ_of_lt (hs.id_lt id' w' hw')

/-- `ccl_wrapper_ref` preserves well-formedness. -/
theorem wfw_ref {s : WrapperSystem} (hs : WFW s) (id : Nat) :
    WFW (ccl_wrapper_ref id s) :=
  wfw_updateA_refcount hs id _ (fun _ => rfl)

/-- `ccl_wrapper_unref` preserves well-formedness. -/
theorem wfw_unref {s : WrapperSystem} (hs : WFW s) (id : Nat) (fr nd : Bool) :
    WFW (ccl_wrapper_unref id fr nd s).2 := by
  cases hw : lookupA id s.wrappers with
  | none =>
    rw [ccl_wrapper_unref_dead hw]
    exact hs
  | some w =>
    by_cases hz : w.ref_count - 1 = 0
    · rw [ccl_wrapper_unref_last hw hz]
      show WFW (destroyW id w.cl_object s)
      unfold destroyW
      have hreg : lookupA w.cl_object s.registry = some id := hs.wr_to_reg id w hw
      refine ⟨nodupKeys_removeA _ hs.reg_nodup, nodupKeys_removeA _ hs.wr_nodup,
              ?_, ?_, ?_⟩
      · intro h' id' hreg'
        have hh : h' ≠ w.cl_object := by
          intro he
          rw [he, lookupA_removeA_self _ hs.reg_nodup] at hreg'
          exact Option.noConfusion hreg'
        rw [lookupA_removeA_ne hh] at hreg'
        obtain ⟨w', hw', hco⟩ := hs.reg_to_wr h' id' hreg'
        have hid : id' ≠ id := by
          intro he
          rw [he, hw] at hw'
          obtain rfl : w = w' := Option.some.inj hw'
          exact hh (hco ▸ rfl)
        exact ⟨w', by rw [lookupA_removeA_ne hid]; exact hw', hco⟩
      · intro id' w' hw'
        have hid : id' ≠ id := by
          intro he
          rw [he, lookupA_removeA_self _ hs.wr_nodup] at hw'
          exact Option.noConfusion hw'
        rw [lookupA_removeA_ne hid] at hw'
        have hr := hs.wr_to_reg id' w' hw'
        have hh : w'.cl_object ≠ w.cl_object := by
          intro he
          rw [he, hreg] at hr
          exact hid (Option.some.inj hr).symm
        rw [lookupA_removeA_ne hh]
        exact hr
      · intro id' w' hw'
        have hid : id' ≠ id := by
          intro he
          rw [he, lookupA_removeA_self _ hs.wr_nodup] at hw'
          exact Option.noConfusion hw'
        rw [lookupA_removeA_ne hid] at hw'
        exact hs.id_lt id' w' hw'
    · rw [ccl_wrapper_unref_live hw hz]
      exact wfw_updateA_refcount hs id _ (fun w => rfl)

/-- One step preserves well-formedness. -/
theorem wfw_stepW {s : WrapperSystem} (hs : WFW s) (op : WOp) :
    WFW (stepW s op) := by
  cases op with
  | new h => exact wfw_new hs h
  | ref id => exact wfw_ref hs id
  | unref id fr nd => exact wfw_unref hs id fr nd

/-- The empty system is well-formed. -/
theorem wfw_empty : WFW WrapperSystem.empty := by
  refine ⟨?_, ?_, ?_, ?_, ?_⟩ <;>
    simp [WrapperSystem.empty, NodupKeys, keysA, lookupA]

/-- Every state reachable from the empty system is well-formed. -/
theorem wfw_runW (ops : List WOp) : WFW (runW ops) := by
  have h : ∀ s, WFW s → WFW (ops.foldl stepW s) := by
    induction ops with
    | nil => intro s hs; exact hs
    | cons op rest ih => intro s hs; exact ih _ (wfw_stepW hs op)
  exact h _ wfw_empty

/-- In a well-formed system, two live wrappers with the same native handle
coincide. -/
theorem WFW.uniqueWrapper {s : WrapperSystem} (hs : WFW s) {id1 id2 : Nat}
    {w1 w2 : CCLWrapper} (h1 : lookupA id1 s.wrappers = some w1)
    (h2 : lookupA id2 s.wrappers = some w2)
    (h : w1.cl_object = w2.cl_object) : id1 = id2 := by
  have r1 := hs.wr_to_reg id1 w1 h1
  have r2 := hs.wr_to_reg id2 w2 h2
  rw [h, r2] at r1
  exact (Option.some.inj r1).symm

theorem removeA_updateA_self {α : Type} (k : Nat) (f : α → α)
    (l : List (Nat × α)) : removeA k (updateA k f l) = removeA k l := by
  induction l with
  | nil => simp [updateA, removeA]
  | cons hd tl ih =>
    obtain ⟨k', v⟩ := hd
    by_cases h : k' = k
    · simp [updateA, removeA, h]
    · simp [updateA, removeA, h, ih]

/-! ### Iterated operations -/

theorem iterRef_registry (id n : Nat) (s : WrapperSystem) :
    (iterRef id n s).registry = s.registry := by
  induction n generalizing s with
  | zero => rfl
  | succ n ih => simpa [iterRef, ccl_wrapper_ref] using ih (ccl_wrapper_ref id s)

theorem iterRef_next_id (id n : Nat) (s : WrapperSystem) :
    (iterRef id n s).next_id = s.next_id := by
  induction n generalizing s with
  | zero => rfl
  | succ n ih => simpa [iterRef, ccl_wrapper_ref] using ih (ccl_wrapper_ref id s)

theorem lookupA_iterRef (id n : Nat) (s : WrapperSystem) :
    lookupA id (iterRef id n s).wrappers =
      (lookupA id s.wrappers).map (fun w => { w with ref_count := w.ref_count + n }) := by
  induction n generalizing s with
  | zero =>
    cases h : lookupA id s.wrappers <;> simp [iterRef, h]
  | succ n ih =>
    show lookupA id (iterRef id n (ccl_wrapper_ref id s)).wrappers = _
    rw [ih (ccl_wrapper_ref id s)]
    show (lookupA id (updateA id _ s.wrappers)).map _ = _
    rw [lookupA_updateA_self]
    cases h : lookupA id s.wrappers with
    | none => simp
    | some w =>
      simp only [Option.map_some']
      congr 1
      simp [Nat.add_assoc, Nat.add_comm 1 n]

theorem wfw_iterRef {s : WrapperSystem} (hs : WFW s) (id n : Nat) :
    WFW (iterRef id n s) := by
  induction n generalizing s with
  | zero => exact hs
  | succ n ih => exact ih (wfw_ref hs id)

/-- Unrefs that do not take the count to zero produce no events and only
decrement. -/
theorem iterUnref_noDestroy {id : Nat} {fr nd : Bool} {s : WrapperSystem}
    {w : CCLWrapper} (h : lookupA id s.wrappers = some w) (k : Nat)
    (hk : k < w.ref_count) :
    (iterUnref id fr nd k s).1 = [] ∧
    lookupA id (iterUnref id fr nd k s).2.wrappers =
      some { w with ref_count := w.ref_count - k } := by
  induction k generalizing s w with
  | zero =>
    refine ⟨rfl, ?_⟩
    simpa [iterUnref] using h
  | succ k ih =>
    have hz : w.ref_count - 1 ≠ 0 := by omega
    have hstep := @ccl_wrapper_unref_live id fr nd s w h hz
    have hlook : lookupA id (decRef id s).wrappers =
        some { w with ref_count := w.ref_count - 1 } := by
      show lookupA id (updateA id _ s.wrappers) = _
      rw [lookupA_updateA_self, h]
      rfl
    have ihh := ih hlook (by simp; omega)
    constructor
    · show ((ccl_wrapper_unref id fr nd s).1 ++
        (iterUnref id fr nd k (ccl_wrapper_unref id fr nd s).2).1) = []
      rw [hstep]
      simpa using ihh.1
    · show lookupA id (iterUnref id fr nd k (ccl_wrapper_unref id fr nd s).2).2.wrappers = _
      rw [hstep]
      rw [ihh.2]
      have harith : w.ref_count - 1 - k = w.ref_count - (k + 1) := by omega
      simp [harith]

/-- `n + 1` unrefs of a wrapper whose count is `n + 1` emit exactly the
destruction sequence and remove the wrapper and its registry entry. -/
theorem iterUnref_destroy {id : Nat} {fr nd : Bool} {s : WrapperSystem}
    {w : CCLWrapper} {n : Nat} (hnd : NodupKeys s.wrappers)
    (h : lookupA id s.wrappers = some w) (hc : w.ref_count = n + 1) :
    iterUnref id fr nd (n + 1) s =
      (destroySeq fr nd id w.cl_object, destroyW id w.cl_object s) := by
  induction n generalizing s w with
  | zero =>
    have hz : w.ref_count - 1 = 0 := by omega
    have hstep := @ccl_wrapper_unref_last id fr nd s w h hz
    show ((ccl_wrapper_unref id fr nd s).1 ++
        (iterUnref id fr nd 0 (ccl_wrapper_unref id fr nd s).2).1,
        (iterUnref id fr nd 0 (ccl_wrapper_unref id fr nd s).2).2) = _
    rw [hstep]
    simp [iterUnref]
  | succ n ih =>
    have hz : w.ref_count - 1 ≠ 0 := by omega
    have hstep := @ccl_wrapper_unref_live id fr nd s w h hz
    have hlook : lookupA id (decRef id s).wrappers =
        some { w with ref_count := w.ref_count - 1 } := by
      show lookupA id (updateA id _ s.wrappers) = _
      rw [lookupA_updateA_self, h]
      rfl
    have hnd' : NodupKeys (decRef id s).wrappers := nodupKeys_updateA _ _ hnd
    have ihh := ih hnd' hlook (by simp; omega)
    show ((ccl_wrapper_unref id fr nd s).1 ++
        (iterUnref id fr nd (n + 1) (ccl_wrapper_unref id fr nd s).2).1,
        (iterUnref id fr nd (n + 1) (ccl_wrapper_unref id fr nd s).2).2) = _
    rw [hstep]
    simp only [ihh]
    refine Prod.ext ?_ ?_
    · simp
    · show destroyW id w.cl_object (decRef id s) = destroyW id w.cl_object s
      unfold destroyW decRef
      simp [removeA_updateA_self]

/-- `n` wrapper_new calls on a handle that is registered with a live
wrapper all return that wrapper and increment its count by `n`. -/
theorem iterNew_registered {handle id : Nat} {s : WrapperSystem}
    {w : CCLWrapper} (m : Nat) (hreg : lookupA handle s.registry = some id)
    (hw : lookupA id s.wrappers = some w) :
    (iterNew handle m s).1 = List.replicate m id ∧
    lookupA id (iterNew handle m s).2.wrappers =
      some { w with ref_count := w.ref_count + m } ∧
    (iterNew handle m s).2.registry = s.registry := by
  induction m generalizing s w with
  | zero =>
    refine ⟨rfl, ?_, rfl⟩
    simpa [iterNew] using hw
  | succ m ih =>
    have hstep := ccl_wrapper_new_registered hreg
    have hreg' : lookupA handle (incRef id s).registry = some id := hreg
    have hlook : lookupA id (incRef id s).wrappers =
        some { w with ref_count := w.ref_count + 1 } := by
      show lookupA id (updateA id _ s.wrappers) = _
      rw [lookupA_updateA_self, hw]
      rfl
    have ihh := ih hreg' hlook
    refine ⟨?_, ?_, ?_⟩
    · show ((ccl_wrapper_new handle s).1 ::
        (iterNew handle m (ccl_wrapper_new handle s).2).1) = _
      rw [hstep]
      simp [ihh.1, List.replicate_succ]
    · show lookupA id (iterNew handle m (ccl_wrapper_new handle s).2).2.wrappers = _
      rw [hstep]
      rw [ihh.2.1]
      congr 2
      simp [Nat.add_assoc, Nat.add_comm 1 m]
    · show (iterNew handle m (ccl_wrapper_new handle s).2).2.registry = _
      rw [hstep]
      exact ihh.2.2

/-! ## Info cache (`ccl_wrapper_get_info`) -/

/-- Lookup in the info cache, keyed by (query id, auxiliary identity). -/
def lookupC (k : Nat × Option Nat) :
    List ((Nat × Option Nat) × CCLWrapperInfo) → Option CCLWrapperInfo
  | [] => none
  | (k', v) :: rest => if k' = k then some v else lookupC k rest

/-- Insert-or-replace in the info cache. -/
def setC (k : Nat × Option Nat) (v : CCLWrapperInfo) :
    List ((Nat × Option Nat) × CCLWrapperInfo) →
    List ((Nat × Option Nat) × CCLWrapperInfo)
  | [] => [(k, v)]
  | (k', v') :: rest => if k' = k then (k, v) :: rest else (k', v') :: setC k v rest

theorem lookupC_setC_self (k : Nat × Option Nat) (v : CCLWrapperInfo)
    (l : List ((Nat × Option Nat) × CCLWrapperInfo)) :
    lookupC k (setC k v l) = some v := by
  induction l with
  | nil => simp [setC, lookupC]
  | cons hd tl ih =>
    obtain ⟨k', v'⟩ := hd
    by_cases h : k' = k
    · simp [setC, h, lookupC]
    · simp [setC, h, lookupC, ih]

/-- Modelled from the spec: the state a `ccl_wrapper_get_info` call reads
and writes (implementation file missing): the owning wrapper's info cache,
the buffer-identity allocator, and a ghost counter of invocations of the
native query capability (one invocation = one size-then-fill query
protocol of §4.3, collapsed into a single call of the capability). -/
structure InfoState where
  cache : List ((Nat × Option Nat) × CCLWrapperInfo)
  next_buf : Nat
  native_calls : Nat
deriving DecidableEq, Repr

/-- Modelled from the spec: `ccl_wrapper_get_info` (§4.3, implementation
file missing).  `qf` is the native query capability
(`ccl_wrapper_info_fp`): given the wrapper's native handle, the auxiliary
wrapper's handle (or none) and the query id, it either fails with a native
status code or yields the queried bytes.  With `use_cache` set, a cached
entry for `(param_name, aux)` is returned immediately with no native call;
otherwise the native query runs: on error the operation fails with the
native status code and the cache is left unchanged; on success a fresh
buffer is allocated, stored in the cache under the key, and returned. -/
def ccl_wrapper_get_info (qf : Nat → Option Nat → Nat → Except Int (List Nat))
    (handle : Nat) (aux : Option Nat) (param_name : Nat) (use_cache : Bool)
    (st : InfoState) : Except Int CCLWrapperInfo × InfoState :=
  match if use_cache then lookupC (param_name, aux) st.cache else none with
  | some info => (Except.ok info, st)
  | none =>
      match qf handle aux param_name with
      | Except.error code =>
          (Except.error code, { st with native_calls := st.native_calls + 1 })
      | Except.ok bytes =>
          let info : CCLWrapperInfo :=
            { bufId := st.next_buf, size := bytes.length, value := bytes }
          (Except.ok info,
           { cache := setC (param_name, aux) info st.cache,
             next_buf := st.next_buf + 1,
             native_calls := st.native_calls + 1 })

/-! ## Device container (`ccl_dev_container_*`) -/

/-- Wrap a list of native handles in order via `ccl_wrapper_new`
(used by the device container and by `ccl_platforms_new`). -/
def wrapAll : List Nat → WrapperSystem → List Nat × WrapperSystem
  | [], s => ([], s)
  | h :: t, s =>
      let r := ccl_wrapper_new h s
      let r' := wrapAll t r.2
      (r.1 :: r'.1, r'.2)

/-- Modelled from the spec: the `CCLDevContainer` fields added on top of
`CCLWrapper` (implementation file missing): the lazily materialized
sequence of device-wrapper identities (`none` = Uninitialized). -/
structure CCLDevContainer where
  num_devices : Nat
  devices : Option (List Nat)
deriving DecidableEq, Repr

/-- The state a device-container operation reads and writes: the container
itself, the wrapper system (device wrappers are created through it), and a
ghost counter of invocations of the container-type-specific raw
device-ID accessor. -/
structure DevContainerCtx where
  container : CCLDevContainer
  sys : WrapperSystem
  accessor_calls : Nat
deriving DecidableEq, Repr

/-- Modelled from the spec: `ccl_dev_container_get_all_devices`
(implementation file missing).  `raw` is what the container-type-specific
accessor returns (the native device-ID array).  If the container is
uninitialized, invoke the accessor, wrap every device ID via
`ccl_wrapper_new`, and store the sequence; otherwise return the stored
sequence untouched. -/
def ccl_dev_container_get_all_devices (raw : List Nat) (ctx : DevContainerCtx) :
    List Nat × DevContainerCtx :=
  match ctx.container.devices with
  | some ds => (ds, ctx)
  | none =>
      let r := wrapAll raw ctx.sys
      (r.1, { container := { num_devices := raw.length, devices := some r.1 },
              sys := r.2,
              accessor_calls := ctx.accessor_calls + 1 })

/-- Modelled from the spec: `ccl_dev_container_get_device`
(implementation file missing) — the device at the given index of the
materialized sequence, or `IndexOutOfRange`. -/
def ccl_dev_container_get_device (raw : List Nat) (i : Nat)
    (ctx : DevContainerCtx) : Except Unit Nat × DevContainerCtx :=
  let r := ccl_dev_container_get_all_devices raw ctx
  match r.1[i]? with
  | some d => (Except.ok d, r.2)
  | none => (Except.error (), r.2)

/-- Modelled from the spec: `ccl_dev_container_get_num_devices`
(implementation file missing) — the length of the materialized sequence. -/
def ccl_dev_container_get_num_devices (raw : List Nat)
    (ctx : DevContainerCtx) : Nat × DevContainerCtx :=
  let r := ccl_dev_container_get_all_devices raw ctx
  (r.1.length, r.2)

/-! ## Concrete layer: kernel wrapper and platforms container -/

/-- CL_SUCCESS of the OpenCL API. -/
def CL_SUCCESS : Int := 0

/-- The error object (`GError` / `CCLErr`) as visible to callers of the
constructors: either an error created from a native OpenCL status, or the
framework's device-not-found error (`CCL_ERROR_DEVICE_NOT_FOUND`). -/
inductive CCLErr where
  | oclError (code : Int)
  | deviceNotFound
deriving DecidableEq, Repr

/-- `ccl_kernel_new_wrap` of `kernel_wrapper.c`: wrap an OpenCL kernel via
`ccl_wrapper_new` (creating a wrapper with ref-count 1, or returning the
existing one with its count incremented). -/
def ccl_kernel_new_wrap (kernel : Nat) (s : WrapperSystem) : Nat × WrapperSystem :=
  ccl_wrapper_new kernel s

/-- `ccl_kernel_new` of `kernel_wrapper.c`.  `createKernel` models the
`clCreateKernel` call: the native status it reports and the kernel handle.
On non-success the function sets the error object and returns NULL
(`none`); on success it wraps the kernel and returns it with no error. -/
def ccl_kernel_new (createKernel : Int × Nat) (s : WrapperSystem) :
    Option Nat × Option CCLErr × WrapperSystem :=
  if createKernel.1 = CL_SUCCESS then
    let r := ccl_kernel_new_wrap createKernel.2 s
    (some r.1, none, r.2)
  else
    (none, some (CCLErr.oclError createKernel.1), s)

/-- The `ccl_platforms` struct of `ccl_platforms.c`: the array of platform
wrappers and their number. -/
structure CCLPlatforms where
  platfs : List Nat
  num_platfs : Nat
deriving DecidableEq, Repr

/-- `ccl_platforms_new` of `ccl_platforms.c`.  `getNum` models the first
`clGetPlatformIDs` call (status, platform count); `getIds` models the
second (status, platform-ID array).  Following the source's order of
checks: a zero platform count fails with `CCL_ERROR_DEVICE_NOT_FOUND`
before the first status is examined; then either non-success status fails
with that status; otherwise every platform ID is wrapped
(`ccl_platform_new_wrap` → `ccl_wrapper_new`) and the object is returned
with no error. -/
def ccl_platforms_new (getNum : Int × Nat) (getIds : Int × List Nat)
    (s : WrapperSystem) : Option CCLPlatforms × Option CCLErr × WrapperSystem :=
  if getNum.2 = 0 then
    (none, some CCLErr.deviceNotFound, s)
  else if getNum.1 ≠ CL_SUCCESS then
    (none, some (CCLErr.oclError getNum.1), s)
  else if getIds.1 ≠ CL_SUCCESS then
    (none, some (CCLErr.oclError getIds.1), s)
  else
    let r := wrapAll getIds.2 s
    (some { platfs := r.1, num_platfs := getNum.2 }, none, r.2)

/-! ## Kernel argument table (`ccl_kernel_set_arg`, `ccl_kernel_set_args_v`) -/

/-- `ccl_kernel_set_arg` of `kernel_wrapper.c`: store the argument in the
kernel's pending-argument table under `arg_index`
(`g_hash_table_replace`), creating the table on first use (a NULL table is
indistinguishable from an empty one here).  The second component is the
argument previously stored at that index, which `g_hash_table_replace`
hands to the table's value-destroy function `ccl_arg_destroy` (i.e. it is
freed). -/
def ccl_kernel_set_arg (args : List (Nat × Nat)) (arg_index : Nat)
    (arg : Nat) : List (Nat × Nat) × Option Nat :=
  (setA arg_index arg args, lookupA arg_index args)

/-- `ccl_kernel_set_args_v` of `kernel_wrapper.c`: walk the variadic
argument list from index `i` (the public entry starts at 0), storing each
element via `ccl_kernel_set_arg`, and stop at the first NULL.  The second
component collects the freed (replaced) arguments in order. -/
def ccl_kernel_set_args_v (args : List (Nat × Nat)) :
    Nat → List (Option Nat) → List (Nat × Nat) × List Nat
  | _, [] => (args, [])
  | _, none :: _ => (args, [])
  | i, some a :: rest =>
      let r := ccl_kernel_set_arg args i a
      let r' := ccl_kernel_set_args_v r.1 (i + 1) rest
      (r'.1, r.2.toList ++ r'.2)

/-- The elements of a variadic argument list before the first NULL. -/
def argPrefix : List (Option Nat) → List Nat
  | [] => []
  | none :: _ => []
  | some a :: rest => a :: argPrefix rest

/-! ## Claim theorems: wrapper lifecycle -/

/-- C1: for every native handle and every `wrapper_new(handle, size)` call:
if a live wrapper already exists for the handle, that same wrapper is
returned and its ref-count is incremented by 1 (registry untouched); if
none exists, a new zero-initialized wrapper with `native_handle = handle`
and `ref_count = 1` is created and inserted into the registry; and in any
state reachable from the empty system, at most one wrapper exists per
distinct live native handle. -/
theorem claim_C1_wrapper_new_identity :
    (∀ (s : WrapperSystem) (handle id : Nat),
        lookupA handle s.registry = some id →
        ccl_wrapper_new handle s = (id, incRef id s) ∧
        lookupA id (incRef id s).wrappers =
          (lookupA id s.wrappers).map
            (fun w => { w with ref_count := w.ref_count + 1 }) ∧
        (incRef id s).registry = s.registry) ∧
    (∀ (s : WrapperSystem) (handle : Nat),
        lookupA handle s.registry = none →
        ccl_wrapper_new handle s = (s.next_id, freshW handle s) ∧
        lookupA s.next_id (freshW handle s).wrappers =
          some { cl_object := handle, info := [], ref_count := 1 } ∧
        lookupA handle (freshW handle s).registry = some s.next_id) ∧
    (∀ (ops : List WOp) (id1 id2 : Nat) (w1 w2 : CCLWrapper),
        lookupA id1 (runW ops).wrappers = some w1 →
        lookupA id2 (runW ops).wrappers = some w2 →
        w1.cl_object = w2.cl_object → id1 = id2) := by
  refine ⟨?_, ?_, ?_⟩
  · intro s handle id h
    refine ⟨ccl_wrapper_new_registered h, ?_, rfl⟩
    show lookupA id (updateA id _ s.wrappers) = _
    exact lookupA_updateA_self _ _ _
  · intro s handle h
    exact ⟨ccl_wrapper_new_fresh h, lookupA_setA_self _ _ _,
           lookupA_setA_self _ _ _⟩
  · intro ops id1 id2 w1 w2 h1 h2 hco
    exact (wfw_runW ops).uniqueWrapper h1 h2 hco

/-- Closed instance of C1: a second `wrapper_new` on an already-wrapped
handle returns the existing wrapper; a `wrapper_new` on an unknown handle
creates a fresh one. -/
theorem claim_C1_wrapper_new_identity_witness :
    ccl_wrapper_new 5 (runW [WOp.new 5]) = (0, incRef 0 (runW [WOp.new 5])) ∧
    ccl_wrapper_new 7 WrapperSystem.empty = (0, freshW 7 WrapperSystem.empty) :=
  ⟨(claim_C1_wrapper_new_identity.1 (runW [WOp.new 5]) 5 0 (by decide)).1,
   (claim_C1_wrapper_new_identity.2.1 WrapperSystem.empty 7 (by decide)).1⟩

/-- C2: `unref` decrements the ref-count; exactly when the count reaches
zero it performs the destruction sequence (field releaser if non-null,
native destructor if non-null, registry removal, cache free, memory free),
each exactly once, and otherwise it does nothing further.  Lifecycle:
after `wrapper_new` the count is 1, after `N` refs it is `1 + N`, and
`N + 1` unrefs emit the destruction sequence exactly once — only on the
final unref — after which the wrapper and its registry entry are gone. -/
theorem claim_C2_unref_lifecycle :
    (∀ (s : WrapperSystem) (id : Nat) (fr nd : Bool) (w : CCLWrapper),
        lookupA id s.wrappers = some w →
        (w.ref_count - 1 = 0 →
          ccl_wrapper_unref id fr nd s =
            (destroySeq fr nd id w.cl_object, destroyW id w.cl_object s)) ∧
        (w.ref_count - 1 ≠ 0 →
          ccl_wrapper_unref id fr nd s = ([], decRef id s))) ∧
    (∀ (s : WrapperSystem) (handle : Nat) (fr nd : Bool) (N : Nat),
        WFW s → lookupA handle s.registry = none →
        ccl_wrapper_new handle s = (s.next_id, freshW handle s) ∧
        lookupA s.next_id (freshW handle s).wrappers =
          some { cl_object := handle, info := [], ref_count := 1 } ∧
        lookupA s.next_id (iterRef s.next_id N (freshW handle s)).wrappers =
          some { cl_object := handle, info := [], ref_count := 1 + N } ∧
        iterUnref s.next_id fr nd (N + 1) (iterRef s.next_id N (freshW handle s)) =
          (destroySeq fr nd s.next_id handle,
           destroyW s.next_id handle (iterRef s.next_id N (freshW handle s))) ∧
        (∀ k, k ≤ N →
          (iterUnref s.next_id fr nd k (iterRef s.next_id N (freshW handle s))).1 = []) ∧
        lookupA s.next_id
          (destroyW s.next_id handle (iterRef s.next_id N (freshW handle s))).wrappers = none ∧
        lookupA handle
          (destroyW s.next_id handle (iterRef s.next_id N (freshW handle s))).registry = none) := by
  constructor
  · intro s id fr nd w hw
    exact ⟨fun hz => ccl_wrapper_unref_last hw hz,
           fun hz => ccl_wrapper_unref_live hw hz⟩
  · intro s handle fr nd N hs hreg
    have hnew := @ccl_wrapper_new_fresh handle s hreg
    have hwf1 : WFW (freshW handle s) := by
      have := wfw_new hs handle
      rwa [hnew] at this
    have hwf2 : WFW (iterRef s.next_id N (freshW handle s)) :=
      wfw_iterRef hwf1 s.next_id N
    have hw1 : lookupA s.next_id (freshW handle s).wrappers =
        some { cl_object := handle, info := [], ref_count := 1 } :=
      lookupA_setA_self _ _ _
    have hw2 : lookupA s.next_id (iterRef s.next_id N (freshW handle s)).wrappers =
        some { cl_object := handle, info := [], ref_count := 1 + N } := by
      rw [lookupA_iterRef, hw1]
      rfl
    have hc : ({ cl_object := handle, info := [], ref_count := 1 + N } :
        CCLWrapper).ref_count = N + 1 := by
      simp [Nat.add_comm]
    refine ⟨hnew, hw1, hw2, iterUnref_destroy hwf2.wr_nodup hw2 hc,
      ?_, ?_, ?_⟩
    · intro k hk
      exact (iterUnref_noDestroy hw2 k (by simp; omega)).1
    · exact lookupA_removeA_self _ hwf2.wr_nodup
    · exact lookupA_removeA_self _ hwf2.reg_nodup

/-- Closed instance of C2: destroying a freshly wrapped handle emits the
destruction sequence once; with 2 extra refs, 3 unrefs destroy exactly
once. -/
theorem claim_C2_unref_lifecycle_witness :
    ccl_wrapper_unref 0 true true (freshW 3 WrapperSystem.empty) =
      (destroySeq true true 0 3, destroyW 0 3 (freshW 3 WrapperSystem.empty)) ∧
    iterUnref 0 true true 3 (iterRef 0 2 (freshW 3 WrapperSystem.empty)) =
      (destroySeq true true 0 3,
       destroyW 0 3 (iterRef 0 2 (freshW 3 WrapperSystem.empty))) := by
  have h1 := (claim_C2_unref_lifecycle.1 (freshW 3 WrapperSystem.empty) 0 true true
      { cl_object := 3, info := [], ref_count := 1 } (by decide)).1 (by decide)
  have h2 := (claim_C2_unref_lifecycle.2 WrapperSystem.empty 3 true true 2
      wfw_empty (by decide)).2.2.2.1
  exact ⟨h1, h2⟩

/-- C4: after the final unref of a wrapper (count 1 → 0) the registry
entry is removed in the same step, and a subsequent `wrapper_new` with the
same handle value creates a fresh wrapper — a different identity — with
ref-count 1, never the destroyed instance. -/
theorem claim_C4_registry_cleanup {s : WrapperSystem} {id : Nat}
    {w : CCLWrapper} (fr nd : Bool) (hs : WFW s)
    (hw : lookupA id s.wrappers = some w) (hc : w.ref_count = 1) :
    ccl_wrapper_unref id fr nd s =
      (destroySeq fr nd id w.cl_object, destroyW id w.cl_object s) ∧
    lookupA w.cl_object (destroyW id w.cl_object s).registry = none ∧
    ccl_wrapper_new w.cl_object (destroyW id w.cl_object s) =
      (s.next_id, freshW w.cl_object (destroyW id w.cl_object s)) ∧
    s.next_id ≠ id ∧
    lookupA s.next_id
      (freshW w.cl_object (destroyW id w.cl_object s)).wrappers =
      some { cl_object := w.cl_object, info := [], ref_count := 1 } := by
  have hz : w.ref_count - 1 = 0 := by omega
  have hregnone : lookupA w.cl_object (destroyW id w.cl_object s).registry = none :=
    lookupA_removeA_self _ hs.reg_nodup
  refine ⟨ccl_wrapper_unref_last hw hz, hregnone, ?_, ?_, lookupA_setA_self _ _ _⟩
  · exact ccl_wrapper_new_fresh hregnone
  · exact Nat.ne_of_gt (hs.id_lt id w hw)

/-- Closed instance of C4: destroy the only wrapper of handle 9, wrap 9
again — the new wrapper has a different identity and ref-count 1. -/
theorem claim_C4_registry_cleanup_witness :
    ccl_wrapper_new 9 (destroyW 0 9 (freshW 9 WrapperSystem.empty)) =
      (1, freshW 9 (destroyW 0 9 (freshW 9 WrapperSystem.empty))) ∧
    (1 : Nat) ≠ 0 := by
  have hWF : WFW (freshW 9 WrapperSystem.empty) := by
    have := wfw_new wfw_empty 9
    rwa [ccl_wrapper_new_fresh (by decide)] at this
  have h := @claim_C4_registry_cleanup (freshW 9 WrapperSystem.empty) 0
      { cl_object := 9, info := [], ref_count := 1 }
      false true hWF (by decide) rfl
  exact ⟨h.2.2.1, h.2.2.2.1⟩

/-- C9: `N` calls of `wrapper_new` with the same previously unknown handle
— each call atomic under the registry lock, so any concurrent execution is
some serialization of the `N` calls — all return the same single wrapper
identity, and its ref-count equals `N` after all calls; no second wrapper
is ever created for the handle. -/
theorem claim_C9_concurrent_new {s : WrapperSystem} {handle : Nat}
    (h : lookupA handle s.registry = none) (N : Nat) :
    (iterNew handle N s).1 = List.replicate N s.next_id ∧
    (0 < N →
      lookupA s.next_id (iterNew handle N s).2.wrappers =
        some { cl_object := handle, info := [], ref_count := N }) := by
  cases N with
  | zero => exact ⟨rfl, fun hN => absurd hN (by omega)⟩
  | succ m =>
    have hstep := @ccl_wrapper_new_fresh handle s h
    have hreg' : lookupA handle (freshW handle s).registry = some s.next_id :=
      lookupA_setA_self _ _ _
    have hw' : lookupA s.next_id (freshW handle s).wrappers =
        some { cl_object := handle, info := [], ref_count := 1 } :=
      lookupA_setA_self _ _ _
    have ihh := iterNew_registered m hreg' hw'
    constructor
    · show ((ccl_wrapper_new handle s).1 ::
        (iterNew handle m (ccl_wrapper_new handle s).2).1) = _
      rw [hstep]
      simp [ihh.1, List.replicate_succ]
    · intro _
      show lookupA s.next_id
        (iterNew handle m (ccl_wrapper_new handle s).2).2.wrappers = _
      rw [hstep]
      show lookupA s.next_id (iterNew handle m (freshW handle s)).2.wrappers = _
      rw [ihh.2.1]
      congr 2
      simp [Nat.add_comm]

/-- Closed instance of C9: three serialized `wrapper_new` calls on handle 4
from the empty system all return wrapper 0, whose count ends at 3. -/
theorem claim_C9_concurrent_new_witness :
    (iterNew 4 3 WrapperSystem.empty).1 = List.replicate 3 0 ∧
    lookupA 0 (iterNew 4 3 WrapperSystem.empty).2.wrappers =
      some { cl_object := 4, info := [], ref_count := 3 } := by
  have h := @claim_C9_concurrent_new WrapperSystem.empty 4 (by decide) 3
  exact ⟨h.1, h.2 (by decide)⟩

/-! ## Claim theorems: info cache -/

/-- C3: for a key whose native query succeeds, two consecutive cached
`get_info` calls with the identical key invoke the native query at most
once in total (the second call changes nothing, so the counter rises by at
most one across both), and both calls return the same result — the very
same buffer identity and size, the second answered from the cache. -/
theorem claim_C3_cache_idempotent
    (qf : Nat → Option Nat → Nat → Except Int (List Nat))
    (handle : Nat) (aux : Option Nat) (param : Nat) (st : InfoState)
    (bytes : List Nat) (hok : qf handle aux param = Except.ok bytes) :
    (ccl_wrapper_get_info qf handle aux param true
        (ccl_wrapper_get_info qf handle aux param true st).2).1 =
      (ccl_wrapper_get_info qf handle aux param true st).1 ∧
    (ccl_wrapper_get_info qf handle aux param true
        (ccl_wrapper_get_info qf handle aux param true st).2).2 =
      (ccl_wrapper_get_info qf handle aux param true st).2 ∧
    (ccl_wrapper_get_info qf handle aux param true st).2.native_calls ≤
      st.native_calls + 1 := by
  cases hcache : lookupC (param, aux) st.cache with
  | some info =>
      refine ⟨?_, ?_, ?_⟩ <;> simp [ccl_wrapper_get_info, hcache]
  | none =>
      refine ⟨?_, ?_, ?_⟩ <;>
        simp [ccl_wrapper_get_info, hcache, hok, lookupC_setC_self]

/-- Closed instance of C3: with an always-succeeding query, the second
cached call is the identity on the state and returns the first call's
result. -/
theorem claim_C3_cache_idempotent_witness :
    (ccl_wrapper_get_info (fun _ _ _ => Except.ok [1, 2]) 8 none 11 true
        (ccl_wrapper_get_info (fun _ _ _ => Except.ok [1, 2]) 8 none 11 true
          ⟨[], 0, 0⟩).2).1 =
      (ccl_wrapper_get_info (fun _ _ _ => Except.ok [1, 2]) 8 none 11 true
        ⟨[], 0, 0⟩).1 ∧
    (ccl_wrapper_get_info (fun _ _ _ => Except.ok [1, 2]) 8 none 11 true
        (ccl_wrapper_get_info (fun _ _ _ => Except.ok [1, 2]) 8 none 11 true
          ⟨[], 0, 0⟩).2).2 =
      (ccl_wrapper_get_info (fun _ _ _ => Except.ok [1, 2]) 8 none 11 true
        ⟨[], 0, 0⟩).2 ∧
    (ccl_wrapper_get_info (fun _ _ _ => Except.ok [1, 2]) 8 none 11 true
        ⟨[], 0, 0⟩).2.native_calls ≤ 0 + 1 :=
  claim_C3_cache_idempotent (fun _ _ _ => Except.ok [1, 2]) 8 none 11
    ⟨[], 0, 0⟩ [1, 2] rfl

/-- C5: when the native query reports a non-success status (on a key not
answered by the cache, i.e. the query actually runs), `get_info` fails
with exactly that status, the cache is unchanged — no partial entry — and
a subsequent cached call for the same key attempts the native query
again. -/
theorem claim_C5_query_failed
    (qf : Nat → Option Nat → Nat → Except Int (List Nat))
    (handle : Nat) (aux : Option Nat) (param : Nat) (use_cache : Bool)
    (st : InfoState) (code : Int)
    (herr : qf handle aux param = Except.error code)
    (hmiss : lookupC (param, aux) st.cache = none) :
    (ccl_wrapper_get_info qf handle aux param use_cache st).1 =
      Except.error code ∧
    (ccl_wrapper_get_info qf handle aux param use_cache st).2.cache =
      st.cache ∧
    (ccl_wrapper_get_info qf handle aux param use_cache st).2.native_calls =
      st.native_calls + 1 ∧
    (ccl_wrapper_get_info qf handle aux param true
        (ccl_wrapper_get_info qf handle aux param use_cache st).2).2.native_calls =
      (ccl_wrapper_get_info qf handle aux param use_cache st).2.native_calls + 1 := by
  have h1 : ccl_wrapper_get_info qf handle aux param use_cache st =
      (Except.error code, { st with native_calls := st.native_calls + 1 }) := by
    cases use_cache <;> simp [ccl_wrapper_get_info, hmiss, herr]
  have h2 : ccl_wrapper_get_info qf handle aux param true
      { st with native_calls := st.native_calls + 1 } =
      (Except.error code,
       { st with native_calls := st.native_calls + 1 + 1 }) := by
    simp [ccl_wrapper_get_info, hmiss, herr]
  refine ⟨by rw [h1], by rw [h1], by rw [h1], by rw [h1, h2]⟩

/-- Closed instance of C5 (spec scenario C): a query failing with native
code 5 returns that code, leaves the cache empty, and a cached retry
invokes the native query again. -/
theorem claim_C5_query_failed_witness :
    (ccl_wrapper_get_info (fun _ _ _ => Except.error 5) 8 none 11 true
        ⟨[], 0, 0⟩).1 = Except.error 5 ∧
    (ccl_wrapper_get_info (fun _ _ _ => Except.error 5) 8 none 11 true
        ⟨[], 0, 0⟩).2.cache = [] ∧
    (ccl_wrapper_get_info (fun _ _ _ => Except.error 5) 8 none 11 true
        ⟨[], 0, 0⟩).2.native_calls = 0 + 1 ∧
    (ccl_wrapper_get_info (fun _ _ _ => Except.error 5) 8 none 11 true
        (ccl_wrapper_get_info (fun _ _ _ => Except.error 5) 8 none 11 true
          ⟨[], 0, 0⟩).2).2.native_calls =
      (ccl_wrapper_get_info (fun _ _ _ => Except.error 5) 8 none 11 true
        ⟨[], 0, 0⟩).2.native_calls + 1 :=
  claim_C5_query_failed (fun _ _ _ => Except.error 5) 8 none 11 true
    ⟨[], 0, 0⟩ 5 rfl rfl

/-! ## Claim theorems: device container -/

theorem get_device_ctx (raw : List Nat) (i : Nat) (ctx : DevContainerCtx) :
    (ccl_dev_container_get_device raw i ctx).2 =
      (ccl_dev_container_get_all_devices raw ctx).2 := by
  unfold ccl_dev_container_get_device
  cases h : (ccl_dev_container_get_all_devices raw ctx).1[i]? <;> simp [h]

theorem gad_idempotent (raw : List Nat) (ctx : DevContainerCtx) :
    ccl_dev_container_get_all_devices raw
        (ccl_dev_container_get_all_devices raw ctx).2 =
      ((ccl_dev_container_get_all_devices raw ctx).1,
       (ccl_dev_container_get_all_devices raw ctx).2) := by
  cases hd : ctx.container.devices <;>
    simp [ccl_dev_container_get_all_devices, hd]

/-- C6: the device sequence is materialized at most once per container:
the second `get_all_devices` returns the same stored sequence (the same
device-wrapper identities) and the same state, the raw accessor is
invoked at most once across both calls, and once materialized the
container stays materialized through any of the three operations. -/
theorem claim_C6_materialize_once (raw : List Nat) (ctx : DevContainerCtx) :
    (ccl_dev_container_get_all_devices raw
        (ccl_dev_container_get_all_devices raw ctx).2).1 =
      (ccl_dev_container_get_all_devices raw ctx).1 ∧
    (ccl_dev_container_get_all_devices raw
        (ccl_dev_container_get_all_devices raw ctx).2).2 =
      (ccl_dev_container_get_all_devices raw ctx).2 ∧
    (ccl_dev_container_get_all_devices raw ctx).2.accessor_calls ≤
      ctx.accessor_calls + 1 ∧
    (ccl_dev_container_get_all_devices raw ctx).2.container.devices =
      some (ccl_dev_container_get_all_devices raw ctx).1 ∧
    (∀ i, (ccl_dev_container_get_device raw i
        (ccl_dev_container_get_all_devices raw ctx).2).2.container =
      (ccl_dev_container_get_all_devices raw ctx).2.container) ∧
    (ccl_dev_container_get_num_devices raw
        (ccl_dev_container_get_all_devices raw ctx).2).2.container =
      (ccl_dev_container_get_all_devices raw ctx).2.container := by
  have hi := gad_idempotent raw ctx
  refine ⟨by rw [hi], by rw [hi], ?_, ?_, ?_, ?_⟩
  · cases hd : ctx.container.devices <;>
      simp [ccl_dev_container_get_all_devices, hd]
  · cases hd : ctx.container.devices <;>
      simp [ccl_dev_container_get_all_devices, hd]
  · intro i
    rw [get_device_ctx, hi]
  · show (ccl_dev_container_get_all_devices raw
      (ccl_dev_container_get_all_devices raw ctx).2).2.container = _
    rw [hi]

/-- C7: `get_device(container, i)` returns exactly the `i`-th element of
`get_all_devices(container)` when `i` is in range, fails with
`IndexOutOfRange` when `i ≥ n`, and `get_num_devices` returns `n`, the
length of the device sequence. -/
theorem claim_C7_get_device (raw : List Nat) (ctx : DevContainerCtx) (i : Nat) :
    (i < (ccl_dev_container_get_all_devices raw ctx).1.length →
      (ccl_dev_container_get_device raw i ctx).1 =
        Except.ok ((ccl_dev_container_get_all_devices raw ctx).1.getD i 0)) ∧
    ((ccl_dev_container_get_all_devices raw ctx).1.length ≤ i →
      (ccl_dev_container_get_device raw i ctx).1 = Except.error ()) ∧
    (ccl_dev_container_get_num_devices raw ctx).1 =
      (ccl_dev_container_get_all_devices raw ctx).1.length := by
  refine ⟨?_, ?_, rfl⟩
  · intro hi
    have h1 : (ccl_dev_container_get_all_devices raw ctx).1[i]? =
        some ((ccl_dev_container_get_all_devices raw ctx).1[i]) :=
      List.getElem?_eq_getElem hi
    have h2 : (ccl_dev_container_get_all_devices raw ctx).1.getD i 0 =
        (ccl_dev_container_get_all_devices raw ctx).1[i] := by
      rw [List.getD_eq_getElem?_getD, h1]
      rfl
    simp [ccl_dev_container_get_device, h1, h2]
  · intro hi
    have h1 : (ccl_dev_container_get_all_devices raw ctx).1[i]? = none := by
      rw [List.getElem?_eq_none_iff]
      exact hi
    simp [ccl_dev_container_get_device, h1]

/-- Closed instance of C7 (spec scenario B): a container over device IDs
`[d1, d2, d3]` has 3 devices, `get_device 1` returns the wrapper of `d2`,
and `get_device 5` is out of range. -/
theorem claim_C7_get_device_witness :
    (ccl_dev_container_get_device [21, 22, 23] 1
        ⟨⟨0, none⟩, WrapperSystem.empty, 0⟩).1 =
      Except.ok ((ccl_dev_container_get_all_devices [21, 22, 23]
        ⟨⟨0, none⟩, WrapperSystem.empty, 0⟩).1.getD 1 0) ∧
    (ccl_dev_container_get_device [21, 22, 23] 5
        ⟨⟨0, none⟩, WrapperSystem.empty, 0⟩).1 = Except.error () ∧
    (ccl_dev_container_get_num_devices [21, 22, 23]
        ⟨⟨0, none⟩, WrapperSystem.empty, 0⟩).1 = 3 := by
  have h1 := claim_C7_get_device [21, 22, 23]
      ⟨⟨0, none⟩, WrapperSystem.empty, 0⟩ 1
  have h5 := claim_C7_get_device [21, 22, 23]
      ⟨⟨0, none⟩, WrapperSystem.empty, 0⟩ 5
  exact ⟨h1.1 (by decide), h5.2.1 (by decide), h1.2.2⟩

/-! ## Claim theorems: concrete constructors and kernel arguments -/

/-- C8: the two error-signalling channels of the constructors always
agree.  `ccl_kernel_new`: a failed `clCreateKernel` yields NULL plus an
error object carrying the native status; success yields the wrapped
kernel and no error.  `ccl_platforms_new`: any failure (no platforms, or
either `clGetPlatformIDs` status non-success) yields NULL plus an error;
success yields the platforms object and no error. -/
theorem claim_C8_construction_channels :
    (∀ (ck : Int × Nat) (s : WrapperSystem),
        ((ccl_kernel_new ck s).1 = none ↔
          ((ccl_kernel_new ck s).2.1).isSome) ∧
        (ck.1 ≠ CL_SUCCESS →
          ccl_kernel_new ck s = (none, some (CCLErr.oclError ck.1), s)) ∧
        (ck.1 = CL_SUCCESS →
          (ccl_kernel_new ck s).1 = some (ccl_kernel_new_wrap ck.2 s).1 ∧
          (ccl_kernel_new ck s).2.1 = none)) ∧
    (∀ (gn : Int × Nat) (gi : Int × List Nat) (s : WrapperSystem),
        ((ccl_platforms_new gn gi s).1 = none ↔
          ((ccl_platforms_new gn gi s).2.1).isSome) ∧
        (gn.2 ≠ 0 → gn.1 = CL_SUCCESS → gi.1 = CL_SUCCESS →
          (ccl_platforms_new gn gi s).1 =
            some { platfs := (wrapAll gi.2 s).1, num_platfs := gn.2 } ∧
          (ccl_platforms_new gn gi s).2.1 = none)) := by
  constructor
  · intro ck s
    by_cases h : ck.1 = CL_SUCCESS <;> simp [ccl_kernel_new, h]
  · intro gn gi s
    by_cases h0 : gn.2 = 0
    · simp [ccl_platforms_new, h0]
    · by_cases h1 : gn.1 = CL_SUCCESS
      · by_cases h2 : gi.1 = CL_SUCCESS
        · simp [ccl_platforms_new, h0, h1, h2]
        · simp [ccl_platforms_new, h0, h1, h2]
      · simp [ccl_platforms_new, h0, h1]

/-- Closed instance of C8: a failing `clCreateKernel` gives NULL plus
error; successful constructions give non-NULL results with no error. -/
theorem claim_C8_construction_channels_witness :
    ccl_kernel_new (1, 5) WrapperSystem.empty =
      (none, some (CCLErr.oclError 1), WrapperSystem.empty) ∧
    (ccl_kernel_new (0, 5) WrapperSystem.empty).1 = some 0 ∧
    (ccl_platforms_new (0, 2) (0, [31, 32]) WrapperSystem.empty).1 =
      some { platfs := [0, 1], num_platfs := 2 } := by
  refine ⟨?_, ?_, ?_⟩
  · exact (claim_C8_construction_channels.1 (1, 5) WrapperSystem.empty).2.1
      (by decide)
  · exact ((claim_C8_construction_channels.1 (0, 5) WrapperSystem.empty).2.2
      rfl).1
  · exact ((claim_C8_construction_channels.2 (0, 2) (0, [31, 32])
      WrapperSystem.empty).2 (by decide) rfl rfl).1

/-! ### Kernel argument table -/

theorem set_args_v_eq_prefix (tbl : List (Nat × Nat)) (i : Nat)
    (argl : List (Option Nat)) :
    ccl_kernel_set_args_v tbl i argl =
      ccl_kernel_set_args_v tbl i ((argPrefix argl).map some) := by
  induction argl generalizing tbl i with
  | nil => rfl
  | cons hd rest ih =>
    cases hd with
    | none => rfl
    | some a =>
      simp only [argPrefix, List.map_cons, ccl_kernel_set_args_v]
      rw [← ih]

theorem set_args_core (p : List Nat) (i : Nat) (tbl : List (Nat × Nat)) :
    (∀ j, lookupA j (ccl_kernel_set_args_v tbl i (p.map some)).1 =
        if i ≤ j ∧ j < i + p.length then p[j - i]? else lookupA j tbl) ∧
    (ccl_kernel_set_args_v tbl i (p.map some)).2 =
      (List.range' i p.length).filterMap (fun j => lookupA j tbl) := by
  induction p generalizing i tbl with
  | nil =>
    refine ⟨fun j => ?_, by simp [ccl_kernel_set_args_v]⟩
    rw [if_neg (by simp only [List.length_nil]; omega)]
    rfl
  | cons a rest ih =>
    have ihh := ih (i + 1) (setA i a tbl)
    constructor
    · intro j
      show lookupA j (ccl_kernel_set_args_v (setA i a tbl) (i + 1)
        (rest.map some)).1 = _
      rw [ihh.1 j]
      by_cases hj : j = i
      · subst hj
        rw [if_neg (by omega), if_pos (by simp only [List.length_cons]; omega)]
        rw [lookupA_setA_self]
        simp
      · by_cases hr : i + 1 ≤ j ∧ j < i + 1 + rest.length
        · rw [if_pos hr, if_pos (by simp only [List.length_cons]; omega)]
          have hji : j - i = (j - (i + 1)) + 1 := by omega
          rw [hji, List.getElem?_cons_succ]
        · rw [if_neg hr, if_neg (by simp only [List.length_cons]; omega)]
          exact lookupA_setA_ne hj a tbl
    · show ((lookupA i tbl).toList ++
        (ccl_kernel_set_args_v (setA i a tbl) (i + 1) (rest.map some)).2) = _
      rw [ihh.2]
      have hcong : (List.range' (i + 1) rest.length).filterMap
          (fun j => lookupA j (setA i a tbl)) =
        (List.range' (i + 1) rest.length).filterMap (fun j => lookupA j tbl) := by
        apply List.filterMap_congr
        intro j hj
        have : i + 1 ≤ j := by
          have := List.mem_range'_1.mp hj
          omega
        exact lookupA_setA_ne (by omega) a tbl
      rw [hcong]
      simp only [List.length_cons]
      rw [List.range'_succ, List.filterMap_cons]
      cases h : lookupA i tbl <;> simp [h]

/-- C10: `ccl_kernel_set_args_v` stores the `i`-th element before the
first NULL of the argument list at pending-argument-table index `i`
(elements at and after the first NULL are ignored), touches no other
index, and the previously stored argument at each written index is handed
to `ccl_arg_destroy` (freed), in order. -/
theorem claim_C10_set_args_v (tbl : List (Nat × Nat))
    (argl : List (Option Nat)) :
    (∀ j, j < (argPrefix argl).length →
      lookupA j (ccl_kernel_set_args_v tbl 0 argl).1 = (argPrefix argl)[j]?) ∧
    (∀ j, (argPrefix argl).length ≤ j →
      lookupA j (ccl_kernel_set_args_v tbl 0 argl).1 = lookupA j tbl) ∧
    ccl_kernel_set_args_v tbl 0 argl =
      ccl_kernel_set_args_v tbl 0 ((argPrefix argl).map some) ∧
    (ccl_kernel_set_args_v tbl 0 argl).2 =
      (List.range (argPrefix argl).length).filterMap (fun j => lookupA j tbl) := by
  have hpre := set_args_v_eq_prefix tbl 0 argl
  have hcore := set_args_core (argPrefix argl) 0 tbl
  refine ⟨?_, ?_, hpre, ?_⟩
  · intro j hj
    rw [hpre, hcore.1 j, if_pos (by omega)]
    simp
  · intro j hj
    rw [hpre, hcore.1 j, if_neg (by omega)]
  · rw [hpre, hcore.2, List.range_eq_range']

/-- Closed instance of C10: with table `{0 ↦ 100, 5 ↦ 200}` and argument
list `[7, 8, NULL, 9]`, index 0 becomes 7 (freeing 100), index 1 becomes
8, the 9 after the NULL is ignored, and index 5 is untouched. -/
theorem claim_C10_set_args_v_witness :
    lookupA 0 (ccl_kernel_set_args_v [(0, 100), (5, 200)] 0
        [some 7, some 8, none, some 9]).1 =
      (argPrefix [some 7, some 8, none, some 9])[0]? ∧
    lookupA 5 (ccl_kernel_set_args_v [(0, 100), (5, 200)] 0
        [some 7, some 8, none, some 9]).1 =
      lookupA 5 [(0, 100), (5, 200)] ∧
    (ccl_kernel_set_args_v [(0, 100), (5, 200)] 0
        [some 7, some 8, none, some 9]).2 =
      (List.range (argPrefix [some 7, some 8, none, some 9]).length).filterMap
        (fun j => lookupA j [(0, 100), (5, 200)]) :=
  ⟨(claim_C10_set_args_v [(0, 100), (5, 200)]
      [some 7, some 8, none, some 9]).1 0 (by decide),
   (claim_C10_set_args_v [(0, 100), (5, 200)]
      [some 7, some 8, none, some 9]).2.1 5 (by decide),
   (claim_C10_set_args_v [(0, 100), (5, 200)]
      [some 7, some 8, none, some 9]).2.2.2⟩
